import Mathlib

/-!
Shallow embedding of the core of `bin/user/mqtt_driver.py` (WeeWX MQTT
driver): the payload parser/normalizer `MQTTDriver._parse_data`, its
deduplication state (`last_seen_packets`, `packet_timestamps`), the
polling emitter `genLoopPackets` / `closePort`, and the `loader` entry
point.

Modelling conventions:
- Python `datetime` values and wall-clock instants live on a single
  integer timeline of seconds (proleptic-Gregorian rata-die seconds);
  `datetime` comparison and `timedelta` subtraction correspond to
  integer comparison and subtraction on this timeline.
- Python floats are modelled as exact unreduced decimals
  (numerator over a power of ten) plus infinities and NaN; the claims
  never depend on binary rounding or overflow-to-infinity.
- Decoded JSON data is an association list of string keys to `JValue`;
  `dict.get` returns `jnull` for absent keys, exactly as Python's
  `dict.get` returns `None` both for JSON `null` and for absent keys.
- Exceptions are explicit: `parseBody` returns a `ParseOutcome` whose
  `exn` constructor marks control flow that in Python raises and is
  caught by the `except Exception` handler at the end of `_parse_data`.
-/

/-- An exact decimal number: `num / 10 ^ k` with the power of ten kept
as an explicit denominator.  Models the numeric values Python obtains
from JSON numbers and from `float(...)` on decimal strings. -/
structure PyNum where
  num : Int
  den : Nat
  deriving DecidableEq, Repr

/-- The value of Python `float(...)`: a finite decimal, an infinity, or
NaN. -/
inductive PyFloat where
  | fin (v : PyNum)
  | pinf
  | ninf
  | fnan
  deriving DecidableEq, Repr

/-- A decoded JSON value as produced by `json.loads`.  Python booleans
are subsumed by numbers (in Python `True == 1` and `float(True) = 1.0`). -/
inductive JValue where
  | jstr (s : String)
  | jnum (v : PyNum)
  | jnull
  | jarr (xs : List JValue)
  | jobj (fields : List (String × JValue))

/-- A hashable Python scalar: what can actually be stored inside the
dedup set.  Lists and dicts are unhashable and raise `TypeError` when a
tuple containing them is used in a set or dict operation. -/
inductive Scalar where
  | sstr (s : String)
  | snum (v : PyNum)
  | snull
  deriving DecidableEq, Repr

/-- Python hashability check: returns the scalar form of a hashable
value, `none` for unhashable values (lists, dicts). -/
def hashScalar : JValue → Option Scalar
  | .jstr s => some (.sstr s)
  | .jnum v => some (.snum v)
  | .jnull => some .snull
  | .jarr _ => none
  | .jobj _ => none

/-- Python truthiness (`not x` in `_parse_data`): `None`, empty strings,
zero, and empty containers are falsy. -/
def pyFalsy : JValue → Bool
  | .jnull => true
  | .jstr s => s == ""
  | .jnum v => v.num == 0
  | .jarr xs => xs.isEmpty
  | .jobj fs => fs.isEmpty

/-- First-match association-list lookup: Python dict lookup (dict keys
are unique, so first match is the match). -/
def alookup {α β : Type _} [DecidableEq α] : List (α × β) → α → Option β
  | [], _ => none
  | (k, v) :: rest, a => if a = k then some v else alookup rest a

/-- `json_data.get(k)`: the value at key `k`, or `None` (modelled
`jnull`) when absent. -/
def jget (j : List (String × JValue)) (k : String) : JValue :=
  (alookup j k).getD .jnull

/- ### Timestamp parsing: `datetime.datetime.strptime(s, "%Y-%m-%d %H:%M:%S")` -/

/-- Numeric value of a decimal digit character. -/
def dv (c : Char) : Nat := c.toNat - 48

/-- One numeric `strptime` field.  CPython's `_strptime` compiles each
directive to a digit-group regex (`%m` to `1[0-2]|0[1-9]|[1-9]`, etc.);
because every directive is followed by a non-digit literal (or the end
of the string), the match is equivalent to: take two digits when their
value lies in `[lo2, hi2]`, otherwise one digit with value at least
`lo1`. -/
def numField (lo2 hi2 lo1 : Nat) : List Char → Option (Nat × List Char)
  | c1 :: c2 :: rest =>
    if c1.isDigit && c2.isDigit
        && decide (lo2 ≤ 10 * dv c1 + dv c2) && decide (10 * dv c1 + dv c2 ≤ hi2) then
      some (10 * dv c1 + dv c2, rest)
    else if c1.isDigit && decide (lo1 ≤ dv c1) then
      some (dv c1, c2 :: rest)
    else none
  | [c1] =>
    if c1.isDigit && decide (lo1 ≤ dv c1) then some (dv c1, []) else none
  | [] => none

/-- The `%Y` directive: exactly four digits. -/
def year4 : List Char → Option (Nat × List Char)
  | a :: b :: c :: d :: rest =>
    if a.isDigit && b.isDigit && c.isDigit && d.isDigit then
      some (1000 * dv a + 100 * dv b + 10 * dv c + dv d, rest)
    else none
  | _ => none

/-- A literal character of the format string. -/
def lit (ch : Char) : List Char → Option (List Char)
  | c :: rest => if c = ch then some rest else none
  | [] => none

/-- Python `str.isspace` characters relevant to `strptime`/`float`. -/
def isPySpace (c : Char) : Bool :=
  c == ' ' || c == '\t' || c == '\n' || c == '\r' || c == '\x0b' || c == '\x0c'

/-- Whitespace in a `strptime` format matches one or more whitespace
characters (`_strptime` compiles it to a whitespace-run regex). -/
def wsField : List Char → Option (List Char)
  | c :: rest => if isPySpace c then some (rest.dropWhile isPySpace) else none
  | [] => none

/-- Whether `y` is a Gregorian leap year. -/
def leapYear (y : Nat) : Bool :=
  y % 4 == 0 && (y % 100 != 0 || y % 400 == 0)

/-- Number of days in month `m` of year `y` (as `datetime` validates). -/
def daysInMonth (y m : Nat) : Nat :=
  match m with
  | 2 => if leapYear y then 29 else 28
  | 4 => 30 | 6 => 30 | 9 => 30 | 11 => 30
  | _ => 31

/-- Days before month `m` in a non-leap year. -/
def daysBeforeMonth (m : Nat) : Nat :=
  match m with
  | 1 => 0 | 2 => 31 | 3 => 59 | 4 => 90 | 5 => 120 | 6 => 151
  | 7 => 181 | 8 => 212 | 9 => 243 | 10 => 273 | 11 => 304 | _ => 334

/-- Rata-die seconds of a calendar datetime: an order-isomorphic
embedding of `datetime` values into the integer timeline, on which
`timedelta` subtraction is integer subtraction. -/
def epochSecs (y mo d h mi s : Nat) : Int :=
  let days : Nat :=
    365 * (y - 1) + (y - 1) / 4 - (y - 1) / 100 + (y - 1) / 400
      + daysBeforeMonth mo + (if 2 < mo ∧ leapYear y then 1 else 0) + (d - 1)
  ((days * 86400 + h * 3600 + mi * 60 + s : Nat) : Int)

/-- `datetime.datetime.strptime(s, "%Y-%m-%d %H:%M:%S")` followed by the
`datetime` constructor's range validation, returning the timeline value,
or `none` where Python raises `ValueError` (no match, trailing data, or
out-of-range date components). -/
def strptimeTs (s : String) : Option Int := do
  let cs := s.toList
  let (y, r) ← year4 cs
  let r ← lit '-' r
  let (mo, r) ← numField 1 12 1 r
  let r ← lit '-' r
  let (d, r) ← numField 1 31 1 r
  let r ← wsField r
  let (h, r) ← numField 0 23 0 r
  let r ← lit ':' r
  let (mi, r) ← numField 0 59 0 r
  let r ← lit ':' r
  let (sec, r) ← numField 0 61 0 r
  if r.isEmpty && decide (1 ≤ y) && decide (d ≤ daysInMonth y mo) && decide (sec ≤ 59) then
    some (epochSecs y mo d h mi sec)
  else none

/- ### `float(...)` conversion -/

/-- Greedy run of decimal digits with Python's underscore rule (an
underscore is consumed only between two digits); returns the digits and
the unconsumed remainder. -/
def digitsU : List Char → List Char × List Char
  | [] => ([], [])
  | [c] => if c.isDigit then ([c], []) else ([], [c])
  | c :: d :: rest =>
    if c.isDigit then
      if d = '_' then
        match rest with
        | [] => ([c], [d])
        | e :: rest2 =>
          if e.isDigit then
            let p := digitsU rest
            (c :: p.1, p.2)
          else ([c], d :: e :: rest2)
      else
        let p := digitsU (d :: rest)
        (c :: p.1, p.2)
    else ([], c :: d :: rest)

/-- Value of a digit run. -/
def digitsToNat (ds : List Char) : Nat :=
  ds.foldl (fun a c => 10 * a + dv c) 0

/-- The decimal part of Python's `float(string)` grammar:
`digits [. digits] [e [sign] digits]`, at least one mantissa digit,
whole input consumed. -/
def parseDecimal (sgn : Int) (cs : List Char) : Option PyFloat :=
  let p1 := digitsU cs
  let p2 : List Char × List Char :=
    match p1.2 with
    | '.' :: rest => digitsU rest
    | _ => ([], p1.2)
  if p1.1.isEmpty && p2.1.isEmpty then none
  else
    let num0 : Nat := digitsToNat (p1.1 ++ p2.1)
    let scale : Nat := p2.1.length
    match p2.2 with
    | [] => some (.fin ⟨sgn * num0, 10 ^ scale⟩)
    | e :: rest =>
      if e = 'e' ∨ e = 'E' then
        let pe : Int × List Char :=
          match rest with
          | '+' :: r => (1, r)
          | '-' :: r => (-1, r)
          | r => (1, r)
        let pd := digitsU pe.2
        if pd.1.isEmpty ∨ ¬ pd.2.isEmpty then none
        else
          let ev := digitsToNat pd.1
          if pe.1 = 1 then some (.fin ⟨sgn * num0 * 10 ^ ev, 10 ^ scale⟩)
          else some (.fin ⟨sgn * num0, 10 ^ (scale + ev)⟩)
      else none

/-- Python `float(string)`: strip surrounding whitespace, optional sign,
then a named special (`inf`, `infinity`, `nan`, case-insensitive) or a
decimal literal.  `none` models `ValueError`. -/
def pyFloatOfStr (s : String) : Option PyFloat :=
  let cs := s.toList.dropWhile isPySpace
  let cs := (cs.reverse.dropWhile isPySpace).reverse
  let sp : Int × List Char :=
    match cs with
    | '+' :: r => (1, r)
    | '-' :: r => (-1, r)
    | r => (1, r)
  let low := sp.2.map Char.toLower
  if low = ['i', 'n', 'f'] ∨ low = ['i', 'n', 'f', 'i', 'n', 'i', 't', 'y'] then
    some (if sp.1 = 1 then .pinf else .ninf)
  else if low = ['n', 'a', 'n'] then
    some .fnan
  else
    parseDecimal sp.1 sp.2

/- ### The driver's deduplication state and `_parse_data` -/

/-- `float(x)` on a decoded JSON value: JSON numbers and numeric strings
convert; non-numeric strings raise `ValueError`; `None`, lists, and
dicts raise `TypeError` (which the per-field `except ValueError` in
`_parse_data` does not catch). -/
inductive ConvResult where
  | ok (f : PyFloat)
  | valErr
  | typeErr
  deriving DecidableEq, Repr

def pyFloatOfJ : JValue → ConvResult
  | .jnum v => .ok (.fin v)
  | .jstr s =>
    match pyFloatOfStr s with
    | some f => .ok f
    | none => .valErr
  | .jnull => .typeErr
  | .jarr _ => .typeErr
  | .jobj _ => .typeErr

/-- The dedup key `(timestamp, model, device_id, message_type)` built at
line 119 of `mqtt_driver.py`.  By that point `strptime` has succeeded, so
the timestamp is a string, and the model check has succeeded, so the
model is a string; `id` and `message_type` are arbitrary hashable
scalars. -/
abbrev PacketId := String × String × Scalar × Scalar

/-- The value stored for one output field of a WeeWX loop packet:
`dateTime`/`usUnits` are Python ints, mapped fields are floats. -/
inductive PVal where
  | vInt (n : Int)
  | vFloat (f : PyFloat)
  deriving DecidableEq, Repr

/-- A loop packet: a Python dict in insertion order. -/
abbrev Packet := List (String × PVal)

/-- Python dict assignment `d[k] = v`: overwrite in place if the key
exists, otherwise append (used both for the output packet and for
`packet_timestamps`). -/
def dictSet {α β : Type _} [DecidableEq α] (l : List (α × β)) (k : α) (v : β) :
    List (α × β) :=
  if l.any (fun p => decide (p.1 = k)) then
    l.map (fun p => if p.1 = k then (k, v) else p)
  else l ++ [(k, v)]

/-- The mutable dedup state of `MQTTDriver`: `last_seen_packets` (a set
of dedup keys) and `packet_timestamps` (a dict from dedup key to the
`datetime` stored for it).  Both start empty in `__init__`. -/
structure DriverState where
  last_seen_packets : List PacketId
  packet_timestamps : List (PacketId × Int)
  deriving DecidableEq, Repr

/-- `self.model_mappings`: model name to (WeeWX field, JSON key) pairs. -/
abbrev Mappings := List (String × List (String × String))

/-- The raw item pulled from the queue, as seen by `json.loads`:
either undecodable text, a decoded non-dict value (on which `.get`
raises `AttributeError`), or a decoded JSON object. -/
inductive RawData where
  | malformed
  | notObject (v : JValue)
  | object (fields : List (String × JValue))

/-- The exceptions `_parse_data` can raise internally; all are caught by
its trailing `except Exception` handler. -/
inductive PyErr where
  | jsonDecodeErr
  | attributeErr
  | strptimeTypeErr
  | strptimeValueErr
  | unhashableErr
  | floatTypeErr
  deriving DecidableEq, Repr

/-- The control-flow outcome of one `_parse_data` call, before the
`except Exception` handler collapses everything but `packet` to `None`:
a built packet, the unknown-model warning rejection (`log.warning`), the
duplicate rejection (`log.debug`), or an internal exception
(`log.error`). -/
inductive ParseOutcome where
  | packet (p : Packet)
  | rejectUnknownModel
  | rejectDuplicate
  | exn (e : PyErr)
  deriving DecidableEq, Repr

/-- The set comprehension at line 123: keep each seen key whose stored
time (defaulting to the current message's parsed timestamp when the key
is missing from `packet_timestamps`) is later than `now - 10` seconds.
Note the stored and default times are message-declared timestamps while
`cutoff` comes from the wall clock. -/
def pruneSeen (seen : List PacketId) (ts : List (PacketId × Int))
    (msgTime cutoff : Int) : List PacketId :=
  seen.filter (fun pkt => decide (cutoff < (alookup ts pkt).getD msgTime))

/-- The initial record of lines 134-136: capture timestamp
`int(time.time())` and the fixed unit-system tag `weewx.US`. -/
def weewxUS : Int := 1

def emptyPacket (now : Int) : Packet :=
  [("dateTime", .vInt now), ("usUnits", .vInt weewxUS)]

/-- The field-mapping loop of lines 139-147: for each
`(weewx_field, json_key)` pair, if the key is present, convert with
`float`; `ValueError` skips the field, `TypeError` escapes the loop. -/
def convertFields (j : List (String × JValue)) :
    List (String × String) → Packet → Except PyErr Packet
  | [], p => .ok p
  | (wf, key) :: rest, p =>
    match alookup j key with
    | none => convertFields j rest p
    | some v =>
      match pyFloatOfJ v with
      | .ok f => convertFields j rest (dictSet p wf (.vFloat f))
      | .valErr => convertFields j rest p
      | .typeErr => .error .floatTypeErr

/-- The body of `MQTTDriver._parse_data` (everything inside its `try`),
threading the mutable dedup state explicitly.  `now` is the wall clock
(used both for the prune cutoff `datetime.datetime.now() - 10 s` and for
the capture timestamp `int(time.time())`). -/
def parseBody (mappings : Mappings) (now : Int) (data : RawData)
    (st : DriverState) : DriverState × ParseOutcome :=
  match data with
  | .malformed => (st, .exn .jsonDecodeErr)
  | .notObject _ => (st, .exn .attributeErr)
  | .object j =>
    match jget j "time" with
    | .jstr ts =>
      match strptimeTs ts with
      | none => (st, .exn .strptimeValueErr)
      | some msgTime =>
        let model := jget j "model"
        if pyFalsy model then (st, .rejectUnknownModel)
        else
          match model with
          | .jstr m =>
            match alookup mappings m with
            | none => (st, .rejectUnknownModel)
            | some fm =>
              let cutoff : Int := now - 10
              let seen1 := pruneSeen st.last_seen_packets st.packet_timestamps msgTime cutoff
              let st1 : DriverState := ⟨seen1, st.packet_timestamps⟩
              match hashScalar (jget j "id"), hashScalar (jget j "message_type") with
              | some sid, some smt =>
                let pkt : PacketId := (ts, m, sid, smt)
                if pkt ∈ seen1 then (st1, .rejectDuplicate)
                else
                  let st2 : DriverState :=
                    ⟨seen1 ++ [pkt], dictSet st.packet_timestamps pkt msgTime⟩
                  match convertFields j fm (emptyPacket now) with
                  | .ok p => (st2, .packet p)
                  | .error e => (st2, .exn e)
              | _, _ => (st1, .exn .unhashableErr)
          | other =>
            match hashScalar other with
            | some _ => (st, .rejectUnknownModel)
            | none => (st, .exn .unhashableErr)
    | other =>
      match other with
      | .jnull => (st, .exn .strptimeTypeErr)
      | _ => (st, .exn .strptimeTypeErr)

/-- What the caller of `_parse_data` sees of an outcome: a packet or
`None`. -/
def outcomeRecord : ParseOutcome → Option Packet
  | .packet p => some p
  | _ => none

/-- `MQTTDriver._parse_data`: the body with its `except Exception`
handler, which logs and returns `None` (state mutations made before the
exception persist). -/
def parse_data (mappings : Mappings) (now : Int) (data : RawData)
    (st : DriverState) : DriverState × Option Packet :=
  let r := parseBody mappings now data st
  (r.1, outcomeRecord r.2)

/- ### Polling emitter and lifecycle -/

/-- The long-lived driver object: the stop event, the dedup state, and
the producer/consumer queue (already-decoded raw items). -/
structure Driver where
  stopEvent : Bool
  state : DriverState
  queue : List RawData

/-- The observable result of one iteration of the `genLoopPackets`
loop: the generator terminated (the `while` condition failed), a cycle
with no record (timeout or rejected message), or a yielded packet. -/
inductive PullResult where
  | terminated
  | noRecord
  | record (p : Packet)
  deriving Repr

/-- One iteration of `genLoopPackets`: if the stop event is set the
generator ends; otherwise pull one queue item (or time out) and parse
it. -/
def genLoopStep (mappings : Mappings) (now : Int) (d : Driver) :
    Driver × PullResult :=
  if d.stopEvent then (d, .terminated)
  else
    match d.queue with
    | [] => (d, .noRecord)
    | x :: rest =>
      let r := parse_data mappings now x d.state
      ({ d with state := r.1, queue := rest },
       match r.2 with
       | some p => .record p
       | none => .noRecord)

/-- `MQTTDriver.closePort`: set the stop event (and stop the network
loop, which has no counterpart in this state model). -/
def closePort (d : Driver) : Driver := { d with stopEvent := true }

/-- The configuration dictionary handed to `loader`: the `MQTTDriver`
section (string options) and the `ModelMappings` section. -/
structure ConfigDict where
  driverSection : List (String × String)
  modelMappings : Mappings

/-- The network side effects of constructing a driver. -/
inductive NetEffect where
  | connect (host : String)
  deriving DecidableEq, Repr

/-- `loader(config_dict, _)`: raise `ValueError` when `host` or `topic`
is missing or empty (`not driver_config.get(...)`), otherwise construct
the driver — whose `__init__` connects to the broker (the one network
effect) and starts with the stop event clear and empty dedup state. -/
def loader (cfg : ConfigDict) : List NetEffect × Except String Driver :=
  match alookup cfg.driverSection "host", alookup cfg.driverSection "topic" with
  | some h, some t =>
    if h == "" || t == "" then
      ([], .error "Both 'host' and 'topic' must be specified in the configuration.")
    else
      ([.connect h], .ok ⟨false, ⟨[], []⟩, []⟩)
  | _, _ =>
    ([], .error "Both 'host' and 'topic' must be specified in the configuration.")


/-- The fields `convertFields` actually adds: the mapped pairs whose
source key is present and converts without error. -/
def okFields (j : List (String × JValue)) (fm : List (String × String)) :
    List (String × PVal) :=
  fm.filterMap (fun q =>
    match alookup j q.2 with
    | some v =>
      match pyFloatOfJ v with
      | .ok f => some (q.1, .vFloat f)
      | .valErr => none
      | .typeErr => none
    | none => none)

/-- The float a present, convertible source key yields (junk `fnan` on
the paths the lemmas exclude). -/
def convOk (j : List (String × JValue)) (key : String) : PyFloat :=
  match alookup j key with
  | some v =>
    match pyFloatOfJ v with
    | .ok f => f
    | .valErr => .fnan
    | .typeErr => .fnan
  | none => .fnan

/- ### Concrete fixtures used by witnesses and counterexamples -/

/-- A one-model mapping table: model `X` maps WeeWX field `temp` to
source key `temperature_F`. -/
def cexCfg : Mappings := [("X", [("temp", "temperature_F")])]

/-- A well-formed message for model `X` (its timestamp parses to
timeline value 7). -/
def cexFields : List (String × JValue) :=
  [("model", .jstr "X"), ("id", .jstr "1"),
   ("time", .jstr "0001-01-01 00:00:07"), ("message_type", .jstr "a"),
   ("temperature_F", .jstr "72.5")]

/-- The dedup key of `cexFields`. -/
def cexPkt : PacketId := ("0001-01-01 00:00:07", "X", .sstr "1", .sstr "a")

/-- The record `cexFields` produces when processed at wall clock 8. -/
def cexRec8 : Packet :=
  [("dateTime", .vInt 8), ("usUnits", .vInt 1),
   ("temp", .vFloat (.fin ⟨725, 10⟩))]

/-- A two-field mapping table for model `X`. -/
def cexCfg2 : Mappings :=
  [("X", [("temp", "temperature_F"), ("hum", "humidity")])]

/-- Like `cexFields` but with a JSON `null` in a mapped source field. -/
def cexFieldsNull : List (String × JValue) :=
  [("model", .jstr "X"), ("id", .jstr "1"),
   ("time", .jstr "0001-01-01 00:00:07"), ("message_type", .jstr "a"),
   ("temperature_F", .jstr "72.5"), ("humidity", .jnull)]

/-- A mapping table whose output field collides with the reserved record
key `dateTime`. -/
def cexCfgDT : Mappings := [("X", [("dateTime", "temperature_F")])]

/-- A dedup state holding one entry far outside the retention window. -/
def cexStale : DriverState := ⟨[cexPkt], [(cexPkt, -100)]⟩


/-- Like `cexFields` but with device id `2` (a distinct PacketIdentity). -/
def cexFields2 : List (String × JValue) :=
  [("model", .jstr "X"), ("id", .jstr "2"),
   ("time", .jstr "0001-01-01 00:00:07"), ("message_type", .jstr "a"),
   ("temperature_F", .jstr "72.5")]

/-- Like `cexFieldsNull` but with a non-numeric string in one mapped
source field (spec scenario D). -/
def cexFieldsBad : List (String × JValue) :=
  [("model", .jstr "X"), ("id", .jstr "1"),
   ("time", .jstr "0001-01-01 00:00:07"), ("message_type", .jstr "a"),
   ("temperature_F", .jstr "not-a-number"), ("humidity", .jstr "40")]

/- ### Helper lemmas about association-list operations -/

theorem alookup_append_fresh {α β : Type _} [DecidableEq α] (l : List (α × β))
    (k : α) (v : β) (h : l.any (fun p => decide (p.1 = k)) = false) :
    alookup (l ++ [(k, v)]) k = some v := by
  induction l with
  | nil => simp [alookup]
  | cons hd tl ih =>
    obtain ⟨k1, v1⟩ := hd
    simp only [List.any_cons, Bool.or_eq_false_iff, decide_eq_false_iff_not] at h
    simp only [List.cons_append, alookup]
    rw [if_neg (fun he => h.1 he.symm)]
    exact ih h.2

theorem alookup_map_set_self {α β : Type _} [DecidableEq α] (l : List (α × β))
    (k : α) (v : β) (h : l.any (fun p => decide (p.1 = k)) = true) :
    alookup (l.map fun p => if p.1 = k then (k, v) else p) k = some v := by
  induction l with
  | nil => simp at h
  | cons hd tl ih =>
    obtain ⟨k1, v1⟩ := hd
    simp only [List.any_cons, Bool.or_eq_true, decide_eq_true_eq] at h
    by_cases hk : k1 = k
    · subst hk
      rw [List.map_cons, if_pos rfl]
      simp [alookup]
    · rw [List.map_cons, if_neg (by simpa using hk)]
      simp only [alookup]
      rw [if_neg (fun he => hk he.symm)]
      exact ih (h.resolve_left hk)

theorem dictSet_alookup_self {α β : Type _} [DecidableEq α] (l : List (α × β))
    (k : α) (v : β) : alookup (dictSet l k v) k = some v := by
  unfold dictSet
  split
  · apply alookup_map_set_self
    assumption
  · apply alookup_append_fresh
    rename_i h
    exact eq_false_of_ne_true h

theorem alookup_map_set_ne {α β : Type _} [DecidableEq α] (l : List (α × β))
    (k k' : α) (v : β) (hk : k' ≠ k) :
    alookup (l.map fun p => if p.1 = k then (k, v) else p) k' = alookup l k' := by
  induction l with
  | nil => rfl
  | cons hd tl ih =>
    obtain ⟨k1, v1⟩ := hd
    by_cases h1 : k1 = k
    · subst h1
      rw [List.map_cons, if_pos rfl]
      simp only [alookup, if_neg hk, ih]
    · rw [List.map_cons, if_neg (by simpa using h1)]
      simp only [alookup, ih]

theorem alookup_append_ne {α β : Type _} [DecidableEq α] (l : List (α × β))
    (k k' : α) (v : β) (hk : k' ≠ k) :
    alookup (l ++ [(k, v)]) k' = alookup l k' := by
  induction l with
  | nil => simp [alookup, if_neg hk]
  | cons hd tl ih =>
    obtain ⟨k1, v1⟩ := hd
    simp only [List.cons_append, List.append_eq, alookup, ih]

theorem dictSet_alookup_isSome_mono {α β : Type _} [DecidableEq α]
    (l : List (α × β)) (k k' : α) (v : β) (h : (alookup l k').isSome = true) :
    (alookup (dictSet l k v) k').isSome = true := by
  by_cases hk : k' = k
  · subst hk
    rw [dictSet_alookup_self]
    rfl
  · unfold dictSet
    split
    · rwa [alookup_map_set_ne l k k' v hk]
    · rwa [alookup_append_ne l k k' v hk]

theorem dictSet_fresh {α β : Type _} [DecidableEq α] (l : List (α × β))
    (k : α) (v : β) (h : l.any (fun p => decide (p.1 = k)) = false) :
    dictSet l k v = l ++ [(k, v)] := by
  unfold dictSet
  rw [if_neg (by simp [h])]

/- ### Claim theorems -/

/-- C9: pruning the SeenSet is idempotent — for every seen set, stored
timestamp table, message time, and cutoff, applying the prune step twice
in succession yields the same set as applying it once. -/
theorem C9_prune_idempotent (seen : List PacketId) (ts : List (PacketId × Int))
    (msgTime cutoff : Int) :
    pruneSeen (pruneSeen seen ts msgTime cutoff) ts msgTime cutoff
      = pruneSeen seen ts msgTime cutoff := by
  unfold pruneSeen
  rw [List.filter_filter]
  apply List.filter_congr
  intro pkt _
  exact Bool.and_self _

/-- C8: after `closePort` sets the stop event, every subsequent pull
attempt on the record sequence terminates immediately with no record,
and calling `closePort` again leaves the driver in the same stopped
state. -/
theorem C8_stop_terminal_idempotent (mappings : Mappings) (now : Int) (d : Driver) :
    genLoopStep mappings now (closePort d) = (closePort d, .terminated)
      ∧ closePort (closePort d) = closePort d := by
  constructor
  · simp [genLoopStep, closePort]
  · rfl

/-- C7: a missing or empty `host` or `topic` makes `loader` raise before
performing any network effect, and every exception raised inside
`_parse_data`'s body is swallowed by its handler — the caller sees the
mutated state and no record, never an exception. -/
theorem C7_errors_contained (cfg : ConfigDict) (mappings : Mappings) (now : Int)
    (data : RawData) (st : DriverState)
    (hmiss : alookup cfg.driverSection "host" = none
      ∨ alookup cfg.driverSection "host" = some ""
      ∨ alookup cfg.driverSection "topic" = none
      ∨ alookup cfg.driverSection "topic" = some "") :
    (∃ msg, loader cfg = ([], Except.error msg))
      ∧ (∀ e, (parseBody mappings now data st).2 = .exn e →
          parse_data mappings now data st = ((parseBody mappings now data st).1, none)) := by
  constructor
  · refine ⟨"Both 'host' and 'topic' must be specified in the configuration.", ?_⟩
    unfold loader
    rcases hh : alookup cfg.driverSection "host" with _ | h
    · rcases ht : alookup cfg.driverSection "topic" with _ | t <;> rfl
    · rcases ht : alookup cfg.driverSection "topic" with _ | t
      · rfl
      · have hor : h = "" ∨ t = "" := by
          rcases hmiss with h1 | h1 | h1 | h1
          · rw [hh] at h1
            simp at h1
          · rw [hh] at h1
            exact Or.inl (Option.some.inj h1)
          · rw [ht] at h1
            simp at h1
          · rw [ht] at h1
            exact Or.inr (Option.some.inj h1)
        rcases hor with h1 | h1 <;> subst h1 <;> simp
  · intro e he
    unfold parse_data
    rw [Prod.ext_iff]
    refine ⟨rfl, ?_⟩
    simp only [he, outcomeRecord]

theorem parse_accept_shape (mappings : Mappings) (now : Int) (data : RawData)
    (st st' : DriverState) (p : Packet)
    (h : parse_data mappings now data st = (st', some p)) :
    ∃ j ts τ m fm sid smt,
      data = RawData.object j
      ∧ jget j "time" = .jstr ts
      ∧ strptimeTs ts = some τ
      ∧ jget j "model" = .jstr m
      ∧ m ≠ ""
      ∧ alookup mappings m = some fm
      ∧ hashScalar (jget j "id") = some sid
      ∧ hashScalar (jget j "message_type") = some smt
      ∧ (ts, m, sid, smt) ∉ pruneSeen st.last_seen_packets st.packet_timestamps τ (now - 10)
      ∧ convertFields j fm (emptyPacket now) = .ok p
      ∧ st' = ⟨pruneSeen st.last_seen_packets st.packet_timestamps τ (now - 10)
                ++ [(ts, m, sid, smt)],
               dictSet st.packet_timestamps (ts, m, sid, smt) τ⟩ := by
  cases data with
  | malformed => simp [parse_data, parseBody, outcomeRecord] at h
  | notObject v => simp [parse_data, parseBody, outcomeRecord] at h
  | object j =>
    unfold parse_data parseBody at h
    dsimp only at h
    split at h
    next ts hts =>
      split at h
      next => simp [outcomeRecord] at h
      next τ hτ =>
        split at h
        next => simp [outcomeRecord] at h
        next hfalsy =>
          split at h
          next m hm =>
            split at h
            next => simp [outcomeRecord] at h
            next fm hfm =>
              split at h
              next sid smt hsid hsmt =>
                split at h
                next hdup => simp [outcomeRecord] at h
                next hdup =>
                  split at h
                  next p' hconv =>
                    simp only [outcomeRecord, Prod.mk.injEq, Option.some.injEq] at h
                    obtain ⟨h1, h2⟩ := h
                    subst h2
                    refine ⟨j, ts, τ, m, fm, sid, smt, rfl, hts, hτ, hm, ?_, hfm,
                      hsid, hsmt, hdup, hconv, h1.symm⟩
                    rw [hm] at hfalsy
                    simpa [pyFalsy] using hfalsy
                  next e hconv => simp [outcomeRecord] at h
              next => simp [outcomeRecord] at h
          next other hother =>
            split at h <;> simp [outcomeRecord] at h
    next other hother =>
      split at h <;> simp [outcomeRecord] at h

theorem parse_duplicate_eq (mappings : Mappings) (now : Int)
    (j : List (String × JValue)) (st : DriverState)
    (ts m : String) (τ : Int) (fm : List (String × String)) (sid smt : Scalar)
    (hts : jget j "time" = .jstr ts)
    (hτ : strptimeTs ts = some τ)
    (hm : jget j "model" = .jstr m)
    (hm0 : m ≠ "")
    (hfm : alookup mappings m = some fm)
    (hsid : hashScalar (jget j "id") = some sid)
    (hsmt : hashScalar (jget j "message_type") = some smt)
    (hdup : (ts, m, sid, smt)
      ∈ pruneSeen st.last_seen_packets st.packet_timestamps τ (now - 10)) :
    parse_data mappings now (.object j) st
      = (⟨pruneSeen st.last_seen_packets st.packet_timestamps τ (now - 10),
          st.packet_timestamps⟩, none) := by
  have hfalsy : pyFalsy (JValue.jstr m) = false := by simp [pyFalsy, hm0]
  unfold parse_data parseBody
  simp only [hts, hτ, hm, hfalsy, Bool.false_eq_true, if_false, hfm, hsid, hsmt,
    hdup, if_true, outcomeRecord]

theorem parse_reach_insert (mappings : Mappings) (now : Int)
    (j : List (String × JValue)) (st : DriverState)
    (ts m : String) (τ : Int) (fm : List (String × String)) (sid smt : Scalar)
    (hts : jget j "time" = .jstr ts)
    (hτ : strptimeTs ts = some τ)
    (hm : jget j "model" = .jstr m)
    (hm0 : m ≠ "")
    (hfm : alookup mappings m = some fm)
    (hsid : hashScalar (jget j "id") = some sid)
    (hsmt : hashScalar (jget j "message_type") = some smt)
    (hdup : (ts, m, sid, smt)
      ∉ pruneSeen st.last_seen_packets st.packet_timestamps τ (now - 10)) :
    parseBody mappings now (.object j) st
      = (⟨pruneSeen st.last_seen_packets st.packet_timestamps τ (now - 10)
            ++ [(ts, m, sid, smt)],
          dictSet st.packet_timestamps (ts, m, sid, smt) τ⟩,
         match convertFields j fm (emptyPacket now) with
         | .ok p => .packet p
         | .error e => .exn e) := by
  have hfalsy : pyFalsy (JValue.jstr m) = false := by simp [pyFalsy, hm0]
  unfold parseBody
  simp only [hts, hτ, hm, hfalsy, Bool.false_eq_true, if_false, hfm, hsid, hsmt,
    hdup, if_false]
  cases hc : convertFields j fm (emptyPacket now) <;> simp [hc]

theorem parse_badtime_eq (mappings : Mappings) (now : Int)
    (j : List (String × JValue)) (st : DriverState) (ts : String)
    (hts : jget j "time" = .jstr ts)
    (hτ : strptimeTs ts = none) :
    parseBody mappings now (.object j) st = (st, .exn .strptimeValueErr) := by
  unfold parseBody
  simp only [hts, hτ]

theorem parse_nonstr_time_eq (mappings : Mappings) (now : Int)
    (j : List (String × JValue)) (st : DriverState)
    (hts : ∀ s, jget j "time" ≠ .jstr s) :
    parseBody mappings now (.object j) st = (st, .exn .strptimeTypeErr) := by
  unfold parseBody
  cases h : jget j "time" with
  | jstr s => exact absurd h (hts s)
  | jnum v => simp only [h]
  | jnull => simp only [h]
  | jarr xs => simp only [h]
  | jobj fs => simp only [h]

theorem parse_unknown_model_eq (mappings : Mappings) (now : Int)
    (j : List (String × JValue)) (st : DriverState) (ts : String) (τ : Int)
    (hts : jget j "time" = .jstr ts)
    (hτ : strptimeTs ts = some τ)
    (hmodel : pyFalsy (jget j "model") = true
      ∨ ∃ m, jget j "model" = .jstr m ∧ m ≠ "" ∧ alookup mappings m = none) :
    parseBody mappings now (.object j) st = (st, .rejectUnknownModel) := by
  unfold parseBody
  rcases hmodel with hf | ⟨m, hm, hm0, hnone⟩
  · simp only [hts, hτ, hf, if_true]
  · have hfalsy : pyFalsy (JValue.jstr m) = false := by simp [pyFalsy, hm0]
    simp only [hts, hτ, hm, hfalsy, Bool.false_eq_true, if_false, hnone]

theorem alookup_append_left_none {α β : Type _} [DecidableEq α]
    (l1 l2 : List (α × β)) (k : α) (h : alookup l1 k = none) :
    alookup (l1 ++ l2) k = alookup l2 k := by
  induction l1 with
  | nil => rfl
  | cons hd tl ih =>
    obtain ⟨k1, v1⟩ := hd
    simp only [alookup] at h
    simp only [List.cons_append, alookup]
    by_cases hc : k = k1
    · rw [if_pos hc] at h
      cases h
    · rw [if_neg hc] at h
      rw [if_neg hc]
      exact ih h

theorem emptyPacket_alookup_ne (now : Int) (k : String)
    (h1 : k ≠ "dateTime") (h2 : k ≠ "usUnits") :
    alookup (emptyPacket now) k = none := by
  simp [emptyPacket, alookup, h1, h2]

theorem convertFields_ok (j : List (String × JValue)) (fm : List (String × String))
    (p0 : Packet)
    (hnt : ∀ q ∈ fm, ∀ v, alookup j q.2 = some v → pyFloatOfJ v ≠ .typeErr)
    (hfresh : ∀ q ∈ fm, p0.any (fun r => decide (r.1 = q.1)) = false)
    (hnodup : (fm.map Prod.fst).Nodup) :
    convertFields j fm p0 = .ok (p0 ++ okFields j fm) := by
  induction fm generalizing p0 with
  | nil => simp [convertFields, okFields]
  | cons q rest ih =>
    obtain ⟨wf, key⟩ := q
    simp only [List.map_cons, List.nodup_cons] at hnodup
    have hnt' : ∀ q ∈ rest, ∀ v, alookup j q.2 = some v → pyFloatOfJ v ≠ .typeErr :=
      fun q hq => hnt q (List.mem_cons_of_mem _ hq)
    cases hlk : alookup j key with
    | none =>
      simp only [convertFields, hlk, okFields, List.filterMap_cons]
      rw [ih p0 hnt' (fun q hq => hfresh q (List.mem_cons_of_mem _ hq)) hnodup.2]
      simp [okFields]
    | some v =>
      cases hcv : pyFloatOfJ v with
      | typeErr =>
        exact absurd hcv (hnt (wf, key) (List.mem_cons_self _ _) v hlk)
      | valErr =>
        simp only [convertFields, hlk, hcv, okFields, List.filterMap_cons]
        rw [ih p0 hnt' (fun q hq => hfresh q (List.mem_cons_of_mem _ hq)) hnodup.2]
        simp [okFields, hlk, hcv]
      | ok f =>
        simp only [convertFields, hlk, hcv]
        rw [dictSet_fresh p0 wf _ (hfresh (wf, key) (List.mem_cons_self _ _))]
        have hfresh' : ∀ q ∈ rest,
            (p0 ++ [(wf, PVal.vFloat f)]).any (fun r => decide (r.1 = q.1)) = false := by
          intro q hq
          rw [List.any_append]
          have hne : wf ≠ q.1 := fun he =>
            hnodup.1 (he ▸ List.mem_map_of_mem Prod.fst hq)
          simp [hfresh q (List.mem_cons_of_mem _ hq), hne]
        rw [ih (p0 ++ [(wf, PVal.vFloat f)]) hnt' hfresh' hnodup.2]
        simp [okFields, List.filterMap_cons, hlk, hcv]

theorem okFields_key_not_mem (j : List (String × JValue))
    (fm : List (String × String)) (k : String) (hk : ∀ q ∈ fm, q.1 ≠ k) :
    alookup (okFields j fm) k = none := by
  induction fm with
  | nil => rfl
  | cons q rest ih =>
    obtain ⟨wf, key⟩ := q
    have hwf : wf ≠ k := hk (wf, key) (List.mem_cons_self _ _)
    have ih' := ih (fun q hq => hk q (List.mem_cons_of_mem _ hq))
    cases hlk : alookup j key with
    | none => simpa [okFields, List.filterMap_cons, hlk] using ih'
    | some v =>
      cases hcv : pyFloatOfJ v with
      | ok f =>
        simp only [okFields, List.filterMap_cons, hlk, hcv, alookup]
        rw [if_neg (fun he => hwf he.symm)]
        simpa [okFields] using ih'
      | valErr => simpa [okFields, List.filterMap_cons, hlk, hcv] using ih'
      | typeErr => simpa [okFields, List.filterMap_cons, hlk, hcv] using ih'

theorem okFields_lookup_ok (j : List (String × JValue)) (fm : List (String × String))
    (hnodup : (fm.map Prod.fst).Nodup) (q : String × String) (hq : q ∈ fm)
    (v : JValue) (f : PyFloat)
    (hlk : alookup j q.2 = some v) (hcv : pyFloatOfJ v = .ok f) :
    alookup (okFields j fm) q.1 = some (.vFloat f) := by
  induction fm with
  | nil => cases hq
  | cons q0 rest ih =>
    obtain ⟨wf, key⟩ := q0
    simp only [List.map_cons, List.nodup_cons] at hnodup
    rcases List.mem_cons.mp hq with he | hmem
    · subst he
      simp [okFields, List.filterMap_cons, hlk, hcv, alookup]
    · have hwf : wf ≠ q.1 := fun he2 =>
        hnodup.1 (he2 ▸ List.mem_map_of_mem Prod.fst hmem)
      have ih' := ih hnodup.2 hmem
      cases hlk0 : alookup j key with
      | none => simpa [okFields, List.filterMap_cons, hlk0] using ih'
      | some v0 =>
        cases hcv0 : pyFloatOfJ v0 with
        | ok f0 =>
          simp only [okFields, List.filterMap_cons, hlk0, hcv0, alookup]
          rw [if_neg (fun he2 => hwf he2.symm)]
          simpa [okFields] using ih'
        | valErr => simpa [okFields, List.filterMap_cons, hlk0, hcv0] using ih'
        | typeErr => simpa [okFields, List.filterMap_cons, hlk0, hcv0] using ih'

theorem okFields_lookup_valErr (j : List (String × JValue))
    (fm : List (String × String)) (hnodup : (fm.map Prod.fst).Nodup)
    (q : String × String) (hq : q ∈ fm) (v : JValue)
    (hlk : alookup j q.2 = some v) (hcv : pyFloatOfJ v = .valErr) :
    alookup (okFields j fm) q.1 = none := by
  induction fm with
  | nil => rfl
  | cons q0 rest ih =>
    obtain ⟨wf, key⟩ := q0
    simp only [List.map_cons, List.nodup_cons] at hnodup
    rcases List.mem_cons.mp hq with he | hmem
    · subst he
      have hrest : ∀ q' ∈ rest, q'.1 ≠ wf := fun q' hq' he2 =>
        hnodup.1 (he2 ▸ List.mem_map_of_mem Prod.fst hq')
      simp only [okFields, List.filterMap_cons, hlk, hcv]
      exact okFields_key_not_mem j rest wf hrest
    · have hwf : wf ≠ q.1 := fun he2 =>
        hnodup.1 (he2 ▸ List.mem_map_of_mem Prod.fst hmem)
      have ih' := ih hnodup.2 hmem
      cases hlk0 : alookup j key with
      | none => simpa [okFields, List.filterMap_cons, hlk0] using ih'
      | some v0 =>
        cases hcv0 : pyFloatOfJ v0 with
        | ok f0 =>
          simp only [okFields, List.filterMap_cons, hlk0, hcv0, alookup]
          rw [if_neg (fun he2 => hwf he2.symm)]
          simpa [okFields] using ih'
        | valErr => simpa [okFields, List.filterMap_cons, hlk0, hcv0] using ih'
        | typeErr => simpa [okFields, List.filterMap_cons, hlk0, hcv0] using ih'

theorem okFields_all_ok (j : List (String × JValue)) (fm : List (String × String))
    (hall : ∀ q ∈ fm, ∃ s f, alookup j q.2 = some (.jstr s) ∧ pyFloatOfStr s = some f) :
    okFields j fm = fm.map (fun q => (q.1, .vFloat (convOk j q.2))) := by
  induction fm with
  | nil => rfl
  | cons q rest ih =>
    obtain ⟨s, f, hlk, hf⟩ := hall q (List.mem_cons_self _ _)
    have ih' := ih (fun q hq => hall q (List.mem_cons_of_mem _ hq))
    simp only [okFields, List.filterMap_cons, hlk, pyFloatOfJ, hf, List.map_cons, convOk]
    simpa [okFields] using ih'

/-- C1 (counterexample): the same message sent twice one second apart —
well inside the 10-second retention window — produces a record BOTH
times when its declared timestamp (timeline value 7) is stale relative
to the wall clock (100, 101): the first parse stores the declared
timestamp, the prune on the second parse evicts it, and the duplicate
is accepted again.  This refutes "regardless of the relation between
the message's declared timestamp and the wall clock". -/
theorem C1_counterexample :
    ((parse_data cexCfg 100 (.object cexFields) ⟨[], []⟩).2).isSome = true
      ∧ ((parse_data cexCfg 101 (.object cexFields)
            (parse_data cexCfg 100 (.object cexFields) ⟨[], []⟩).1).2).isSome = true
      ∧ (101 : Int) - 100 ≤ 10 := by
  exact ⟨rfl, rfl, by decide⟩

/-- C1 (amended): a retransmission carrying the same PacketIdentity is
rejected as a duplicate precisely while the message's declared (parsed)
timestamp is still within 10 seconds of the wall clock at the second
arrival — the retention window is anchored to the declared timestamp,
not to the wall-clock time of the first arrival. -/
theorem C1_dedup_declared_window (mappings : Mappings) (now1 now2 : Int)
    (j1 j2 : List (String × JValue)) (st0 st1 : DriverState) (p : Packet)
    (ts : String) (τ : Int)
    (h1 : parse_data mappings now1 (.object j1) st0 = (st1, some p))
    (hts : jget j1 "time" = .jstr ts)
    (hτ : strptimeTs ts = some τ)
    (heqT : jget j2 "time" = jget j1 "time")
    (heqM : jget j2 "model" = jget j1 "model")
    (heqI : jget j2 "id" = jget j1 "id")
    (heqY : jget j2 "message_type" = jget j1 "message_type")
    (hwin : now2 - 10 < τ) :
    (parse_data mappings now2 (.object j2) st1).2 = none := by
  obtain ⟨j1', ts', τ', m, fm, sid, smt, hj, hts', hτ', hm, hm0, hfm, hsid, hsmt,
    hdup, hconv, hst⟩ := parse_accept_shape mappings now1 (.object j1) st0 st1 p h1
  have hj1 : j1 = j1' := by injection hj
  rw [← hj1] at hts' hm hsid hsmt
  have hts1 : ts = ts' := by
    have h0 : JValue.jstr ts = JValue.jstr ts' := hts.symm.trans hts'
    injection h0
  rw [← hts1] at hτ' hdup hst
  have hτ1 : τ = τ' := by
    rw [hτ] at hτ'
    injection hτ'
  rw [← hτ1] at hdup hst
  have hts2 : jget j2 "time" = .jstr ts := heqT.trans hts
  have hm2 : jget j2 "model" = .jstr m := heqM.trans hm
  have hsid2 : hashScalar (jget j2 "id") = some sid := by rw [heqI]; exact hsid
  have hsmt2 : hashScalar (jget j2 "message_type") = some smt := by
    rw [heqY]; exact hsmt
  have hmem : (ts, m, sid, smt)
      ∈ pruneSeen st1.last_seen_packets st1.packet_timestamps τ (now2 - 10) := by
    subst hst
    unfold pruneSeen
    dsimp only
    rw [List.mem_filter]
    refine ⟨List.mem_append_right _ (List.mem_singleton.mpr rfl), ?_⟩
    rw [dictSet_alookup_self]
    simpa using hwin
  rw [parse_duplicate_eq mappings now2 j2 st1 ts m τ fm sid smt hts2 hτ hm2 hm0
    hfm hsid2 hsmt2 hmem]

/-- Witness for the amended C1 at the concrete fresh-timestamp scenario
(first arrival at wall clock 8, retransmission at 9, declared timestamp
7). -/
theorem C1_dedup_declared_window_witness :
    (parse_data cexCfg 9 (.object cexFields) ⟨[cexPkt], [(cexPkt, 7)]⟩).2 = none :=
  C1_dedup_declared_window cexCfg 8 9 cexFields cexFields ⟨[], []⟩
    ⟨[cexPkt], [(cexPkt, 7)]⟩ cexRec8 "0001-01-01 00:00:07" 7 (by decide)
    rfl (by decide) rfl rfl rfl rfl (by decide)

/-- C10: a duplicate rejection leaves the dedup state exactly as the
prune left it — the set is the pruned set, the time mapping untouched,
no refresh of the stored first-seen time — and once the stored time has
aged past the window the identity is no longer in any later pruned set
(so it will be treated as fresh again). -/
theorem C10_duplicate_frame (mappings : Mappings) (now : Int)
    (j : List (String × JValue)) (st : DriverState)
    (ts m : String) (τ : Int) (fm : List (String × String)) (sid smt : Scalar)
    (hts : jget j "time" = .jstr ts)
    (hτ : strptimeTs ts = some τ)
    (hm : jget j "model" = .jstr m)
    (hm0 : m ≠ "")
    (hfm : alookup mappings m = some fm)
    (hsid : hashScalar (jget j "id") = some sid)
    (hsmt : hashScalar (jget j "message_type") = some smt)
    (hdup : (ts, m, sid, smt)
      ∈ pruneSeen st.last_seen_packets st.packet_timestamps τ (now - 10)) :
    parse_data mappings now (.object j) st
      = (⟨pruneSeen st.last_seen_packets st.packet_timestamps τ (now - 10),
          st.packet_timestamps⟩, none)
      ∧ (∀ now' τ' t, alookup st.packet_timestamps (ts, m, sid, smt) = some t →
          t ≤ now' - 10 →
          (ts, m, sid, smt)
            ∉ pruneSeen st.last_seen_packets st.packet_timestamps τ' (now' - 10)) := by
  refine ⟨parse_duplicate_eq mappings now j st ts m τ fm sid smt hts hτ hm hm0
    hfm hsid hsmt hdup, ?_⟩
  intro now' τ' t hlk hold hmem
  unfold pruneSeen at hmem
  rw [List.mem_filter, hlk] at hmem
  have := of_decide_eq_true hmem.2
  simp only [Option.getD_some] at this
  omega

/-- Witness for C10 at the concrete duplicate scenario. -/
theorem C10_duplicate_frame_witness :
    parse_data cexCfg 9 (.object cexFields) ⟨[cexPkt], [(cexPkt, 7)]⟩
        = (⟨pruneSeen [cexPkt] [(cexPkt, 7)] 7 (9 - 10), [(cexPkt, 7)]⟩, none)
      ∧ (∀ now' τ' t, alookup [(cexPkt, 7)] cexPkt = some t →
          t ≤ now' - 10 →
          cexPkt ∉ pruneSeen [cexPkt] [(cexPkt, 7)] τ' (now' - 10)) :=
  C10_duplicate_frame cexCfg 9 cexFields ⟨[cexPkt], [(cexPkt, 7)]⟩
    "0001-01-01 00:00:07" "X" 7 [("temp", "temperature_F")] (.sstr "1") (.sstr "a")
    rfl (by decide) rfl (by decide) (by decide) rfl rfl (by decide)

/-- C3 (counterexample): a message with the model absent AND the
timestamp absent is rejected through the generic exception path
(`strptime` raises `TypeError` on `None`), not with the unknown-model
warning — refuting "rejected with the warning at step 2, before
timestamp parsing at step 3 is attempted". -/
theorem C3_counterexample :
    (parseBody cexCfg 100 (.object [("foo", JValue.jstr "bar")]) ⟨[], []⟩).2
        = .exn .strptimeTypeErr
      ∧ (parseBody cexCfg 100 (.object [("foo", JValue.jstr "bar")]) ⟨[], []⟩).2
        ≠ .rejectUnknownModel := by
  exact ⟨rfl, by decide⟩

/-- C3 (amended): the unknown-model warning rejection happens only after
timestamp parsing succeeds; a message whose timestamp is missing or does
not parse is rejected through the generic error path (an internal
exception), never with the warning, regardless of its model. -/
theorem C3_warning_after_timestamp (mappings : Mappings) (now : Int)
    (j : List (String × JValue)) (st : DriverState) (ts : String) (τ : Int)
    (hts : jget j "time" = .jstr ts)
    (hτ : strptimeTs ts = some τ)
    (hmodel : pyFalsy (jget j "model") = true
      ∨ ∃ m, jget j "model" = .jstr m ∧ m ≠ "" ∧ alookup mappings m = none) :
    parseBody mappings now (.object j) st = (st, .rejectUnknownModel)
      ∧ ∀ (j' : List (String × JValue)) (st' : DriverState),
          (∀ s, jget j' "time" = .jstr s → strptimeTs s = none) →
          ∃ e, parseBody mappings now (.object j') st' = (st', .exn e) := by
  refine ⟨parse_unknown_model_eq mappings now j st ts τ hts hτ hmodel, ?_⟩
  intro j' st' hbad
  cases hts' : jget j' "time" with
  | jstr s =>
    exact ⟨.strptimeValueErr,
      parse_badtime_eq mappings now j' st' s hts' (hbad s hts')⟩
  | jnum v =>
    exact ⟨.strptimeTypeErr, parse_nonstr_time_eq mappings now j' st'
      (fun s hs => by rw [hts'] at hs; cases hs)⟩
  | jnull =>
    exact ⟨.strptimeTypeErr, parse_nonstr_time_eq mappings now j' st'
      (fun s hs => by rw [hts'] at hs; cases hs)⟩
  | jarr xs =>
    exact ⟨.strptimeTypeErr, parse_nonstr_time_eq mappings now j' st'
      (fun s hs => by rw [hts'] at hs; cases hs)⟩
  | jobj fs =>
    exact ⟨.strptimeTypeErr, parse_nonstr_time_eq mappings now j' st'
      (fun s hs => by rw [hts'] at hs; cases hs)⟩

/-- Witness for the amended C3: a message with a well-formed timestamp
and no model is rejected with the unknown-model warning. -/
theorem C3_warning_after_timestamp_witness :
    parseBody cexCfg 100
        (.object [("time", JValue.jstr "0001-01-01 00:00:07")]) ⟨[], []⟩
        = (⟨[], []⟩, .rejectUnknownModel)
      ∧ ∀ (j' : List (String × JValue)) (st' : DriverState),
          (∀ s, jget j' "time" = .jstr s → strptimeTs s = none) →
          ∃ e, parseBody cexCfg 100 (.object j') st' = (st', .exn e) :=
  C3_warning_after_timestamp cexCfg 100
    [("time", JValue.jstr "0001-01-01 00:00:07")] ⟨[], []⟩
    "0001-01-01 00:00:07" 7 rfl (by decide) (Or.inl rfl)

/-- C2 (counterexample): processing `cexFields` at wall clock 100 stores
recorded time 7 — the message's declared timestamp, not the wall-clock
time 100 of first observation — and retains the entry in both the set
and the mapping although 7 is outside the 10-second window of 100;
moreover a later parse attempt (wall clock 100, different identity)
prunes a stale entry from the identity set but leaves it in the
identity-to-time mapping. -/
theorem C2_counterexample :
    (parse_data cexCfg 100 (.object cexFields) ⟨[], []⟩).1
        = (⟨[cexPkt], [(cexPkt, 7)]⟩ : DriverState)
      ∧ (7 : Int) ≠ 100
      ∧ (7 : Int) < 100 - 10
      ∧ cexPkt ∉ (parse_data cexCfg 100 (.object cexFields2)
          ⟨[cexPkt], [(cexPkt, -100)]⟩).1.last_seen_packets
      ∧ alookup (parse_data cexCfg 100 (.object cexFields2)
          ⟨[cexPkt], [(cexPkt, -100)]⟩).1.packet_timestamps cexPkt = some (-100) := by
  refine ⟨by decide, by decide, by decide, by decide, by decide⟩

/-- C2 (amended): after the prune step every identity remaining in the
seen set has its stored time (the declared message timestamp, defaulting
to the current message's parsed timestamp when unstored) within the
window of the cutoff; the identity-to-time mapping is never pruned (its
entries only persist or are overwritten); and an accepted parse records
the message's declared parsed timestamp for the inserted identity. -/
theorem C2_seen_times_invariant :
    (∀ (seen : List PacketId) (tsm : List (PacketId × Int)) (msgTime cutoff : Int)
        (pkt : PacketId), pkt ∈ pruneSeen seen tsm msgTime cutoff →
        cutoff < (alookup tsm pkt).getD msgTime)
      ∧ (∀ (mappings : Mappings) (now : Int) (data : RawData) (st : DriverState)
          (k : PacketId), (alookup st.packet_timestamps k).isSome = true →
          (alookup ((parse_data mappings now data st).1).packet_timestamps k).isSome
            = true)
      ∧ (∀ (mappings : Mappings) (now : Int) (j : List (String × JValue))
          (st st' : DriverState) (p : Packet) (ts : String) (τ : Int),
          parse_data mappings now (.object j) st = (st', some p) →
          jget j "time" = .jstr ts → strptimeTs ts = some τ →
          ∃ pkt, pkt ∈ st'.last_seen_packets
            ∧ alookup st'.packet_timestamps pkt = some τ) := by
  refine ⟨?_, ?_, ?_⟩
  · intro seen tsm msgTime cutoff pkt hmem
    unfold pruneSeen at hmem
    rw [List.mem_filter] at hmem
    exact of_decide_eq_true hmem.2
  · intro mappings now data st k hk
    cases data with
    | malformed => exact hk
    | notObject v => exact hk
    | object j =>
      unfold parse_data parseBody
      dsimp only
      repeat' split
      all_goals first
        | exact hk
        | exact dictSet_alookup_isSome_mono _ _ _ _ hk
  · intro mappings now j st st' p ts τ h1 hts hτ
    obtain ⟨j1', ts', τ', m, fm, sid, smt, hj, hts', hτ', hm, hm0, hfm, hsid, hsmt,
      hdup, hconv, hst⟩ := parse_accept_shape mappings now (.object j) st st' p h1
    have hj1 : j = j1' := by injection hj
    rw [← hj1] at hts'
    have hts1 : ts = ts' := by
      have h0 : JValue.jstr ts = JValue.jstr ts' := hts.symm.trans hts'
      injection h0
    rw [← hts1] at hτ' hst
    have hτ1 : τ = τ' := by
      rw [hτ] at hτ'
      injection hτ'
    rw [← hτ1] at hst
    subst hst
    refine ⟨(ts, m, sid, smt), ?_, ?_⟩
    · exact List.mem_append_right _ (List.mem_singleton.mpr rfl)
    · exact dictSet_alookup_self _ _ _

/-- Witness for the amended C2 at concrete states. -/
theorem C2_seen_times_invariant_witness :
    ((100 : Int) - 10 < (alookup [(cexPkt, 95)] cexPkt).getD 7)
      ∧ (alookup ((parse_data cexCfg 100 RawData.malformed cexStale).1).packet_timestamps
          cexPkt).isSome = true
      ∧ ∃ pkt, pkt ∈ (⟨[cexPkt], [(cexPkt, 7)]⟩ : DriverState).last_seen_packets
          ∧ alookup (⟨[cexPkt], [(cexPkt, 7)]⟩ : DriverState).packet_timestamps pkt
            = some 7 :=
  ⟨C2_seen_times_invariant.1 [cexPkt] [(cexPkt, 95)] 7 (100 - 10) cexPkt (by decide),
   C2_seen_times_invariant.2.1 cexCfg 100 RawData.malformed cexStale cexPkt (by decide),
   C2_seen_times_invariant.2.2 cexCfg 8 cexFields ⟨[], []⟩ ⟨[cexPkt], [(cexPkt, 7)]⟩
     cexRec8 "0001-01-01 00:00:07" 7 (by decide) rfl (by decide)⟩

/-- C6 (counterexample): a malformed-payload attempt performs no pruning
(the stale out-of-window entry survives), and an attempt that yields no
record (a `TypeError` during field conversion) still grows the SeenSet
— refuting both "pruned on every parse attempt" and "grows only on
attempts that succeed in producing an accepted record". -/
theorem C6_counterexample :
    (parse_data cexCfg 100 RawData.malformed cexStale).1 = cexStale
      ∧ ¬((100 : Int) - 10 < -100)
      ∧ cexPkt ∈ cexStale.last_seen_packets
      ∧ (parse_data cexCfg2 8 (.object cexFieldsNull) ⟨[], []⟩).2 = none
      ∧ (parse_data cexCfg2 8 (.object cexFieldsNull) ⟨[], []⟩).1.last_seen_packets
          = [cexPkt] := by
  refine ⟨by decide, by decide, by decide, by decide, by decide⟩

/-- C6 (amended): the dedup state is untouched by attempts rejected
before the dedup step (malformed payload, non-object payload, missing
or unparseable timestamp, unknown model), and the SeenSet is pruned and
grows by exactly the new identity on every attempt that passes the
duplicate check — even when the attempt is subsequently rejected by a
conversion `TypeError` and yields no record. -/
theorem C6_prune_growth (mappings : Mappings) (now : Int) :
    (∀ st : DriverState, parse_data mappings now .malformed st = (st, none))
      ∧ (∀ (v : JValue) (st : DriverState),
          parse_data mappings now (.notObject v) st = (st, none))
      ∧ (∀ (j : List (String × JValue)) (st : DriverState),
          (∀ s, jget j "time" = .jstr s → strptimeTs s = none) →
          (parse_data mappings now (.object j) st).1 = st)
      ∧ (∀ (j : List (String × JValue)) (st : DriverState) (ts : String) (τ : Int),
          jget j "time" = .jstr ts → strptimeTs ts = some τ →
          (pyFalsy (jget j "model") = true
            ∨ ∃ m, jget j "model" = .jstr m ∧ m ≠ "" ∧ alookup mappings m = none) →
          (parse_data mappings now (.object j) st).1 = st)
      ∧ (∀ (j : List (String × JValue)) (st : DriverState) (ts m : String) (τ : Int)
          (fm : List (String × String)) (sid smt : Scalar),
          jget j "time" = .jstr ts → strptimeTs ts = some τ →
          jget j "model" = .jstr m → m ≠ "" → alookup mappings m = some fm →
          hashScalar (jget j "id") = some sid →
          hashScalar (jget j "message_type") = some smt →
          (ts, m, sid, smt)
            ∉ pruneSeen st.last_seen_packets st.packet_timestamps τ (now - 10) →
          (parse_data mappings now (.object j) st).1.last_seen_packets
            = pruneSeen st.last_seen_packets st.packet_timestamps τ (now - 10)
              ++ [(ts, m, sid, smt)]) := by
  refine ⟨fun st => rfl, fun v st => rfl, ?_, ?_, ?_⟩
  · intro j st hbad
    unfold parse_data
    dsimp only
    cases hts' : jget j "time" with
    | jstr s =>
      rw [parse_badtime_eq mappings now j st s hts' (hbad s hts')]
    | jnum v =>
      rw [parse_nonstr_time_eq mappings now j st
        (fun s hs => by rw [hts'] at hs; cases hs)]
    | jnull =>
      rw [parse_nonstr_time_eq mappings now j st
        (fun s hs => by rw [hts'] at hs; cases hs)]
    | jarr xs =>
      rw [parse_nonstr_time_eq mappings now j st
        (fun s hs => by rw [hts'] at hs; cases hs)]
    | jobj fs =>
      rw [parse_nonstr_time_eq mappings now j st
        (fun s hs => by rw [hts'] at hs; cases hs)]
  · intro j st ts τ hts hτ hmodel
    unfold parse_data
    dsimp only
    rw [parse_unknown_model_eq mappings now j st ts τ hts hτ hmodel]
  · intro j st ts m τ fm sid smt hts hτ hm hm0 hfm hsid hsmt hdup
    unfold parse_data
    dsimp only
    rw [parse_reach_insert mappings now j st ts m τ fm sid smt hts hτ hm hm0 hfm
      hsid hsmt hdup]

/-- Witness for the amended C6: no pruning on a malformed attempt, and
growth by exactly the new identity on an accepted attempt. -/
theorem C6_prune_growth_witness :
    parse_data cexCfg 100 RawData.malformed cexStale = (cexStale, none)
      ∧ (parse_data cexCfg 9 (.object cexFields) ⟨[], []⟩).1.last_seen_packets
          = pruneSeen [] [] 7 (9 - 10) ++ [cexPkt] :=
  ⟨(C6_prune_growth cexCfg 100).1 cexStale,
   (C6_prune_growth cexCfg 9).2.2.2.2 cexFields ⟨[], []⟩ "0001-01-01 00:00:07" "X" 7
     [("temp", "temperature_F")] (.sstr "1") (.sstr "a")
     rfl (by decide) rfl (by decide) (by decide) rfl rfl (by decide)⟩

/-- C5 (counterexample): with the mapping table sending output field
`dateTime` to a numeric source key, the returned record's `dateTime`
entry is the converted float, not the wall-clock capture timestamp 100
— so the claim's "capture timestamp equal to the wall-clock time of
processing" fails for mappings that use the reserved record keys. -/
theorem C5_counterexample :
    (parse_data cexCfgDT 100 (.object cexFields) ⟨[], []⟩).2
        = some [("dateTime", PVal.vFloat (.fin ⟨725, 10⟩)), ("usUnits", PVal.vInt 1)]
      ∧ alookup [("dateTime", PVal.vFloat (.fin ⟨725, 10⟩)),
            ("usUnits", PVal.vInt 1)] "dateTime"
          = some (PVal.vFloat (.fin ⟨725, 10⟩))
      ∧ PVal.vFloat (PyFloat.fin ⟨725, 10⟩) ≠ PVal.vInt 100 := by
  refine ⟨by decide, by decide, by decide⟩

/-- C5 (amended): an accepted message all of whose mapped source values
are numeric strings produces exactly the record made of the capture
timestamp, the unit-system tag, and the mapping's output fields bound to
their parsed floats — provided the mapping's output fields avoid the
reserved record keys `dateTime` and `usUnits` (which would otherwise be
overwritten) and are pairwise distinct. -/
theorem C5_roundtrip (mappings : Mappings) (now : Int)
    (j : List (String × JValue)) (st : DriverState)
    (ts m : String) (τ : Int) (fm : List (String × String)) (sid smt : Scalar)
    (hts : jget j "time" = .jstr ts)
    (hτ : strptimeTs ts = some τ)
    (hm : jget j "model" = .jstr m)
    (hm0 : m ≠ "")
    (hfm : alookup mappings m = some fm)
    (hsid : hashScalar (jget j "id") = some sid)
    (hsmt : hashScalar (jget j "message_type") = some smt)
    (hdup : (ts, m, sid, smt)
      ∉ pruneSeen st.last_seen_packets st.packet_timestamps τ (now - 10))
    (hall : ∀ q ∈ fm, ∃ s f, alookup j q.2 = some (.jstr s) ∧ pyFloatOfStr s = some f)
    (hres : ∀ q ∈ fm, q.1 ≠ "dateTime" ∧ q.1 ≠ "usUnits")
    (hnodup : (fm.map Prod.fst).Nodup) :
    parse_data mappings now (.object j) st
      = (⟨pruneSeen st.last_seen_packets st.packet_timestamps τ (now - 10)
            ++ [(ts, m, sid, smt)],
          dictSet st.packet_timestamps (ts, m, sid, smt) τ⟩,
         some (emptyPacket now
           ++ fm.map (fun q => (q.1, .vFloat (convOk j q.2))))) := by
  have hnt : ∀ q ∈ fm, ∀ v, alookup j q.2 = some v → pyFloatOfJ v ≠ .typeErr := by
    intro q hq v hv
    obtain ⟨s, f, hlk, hf⟩ := hall q hq
    rw [hv] at hlk
    have hvs : v = .jstr s := by injection hlk
    subst hvs
    simp [pyFloatOfJ, hf]
  have hfresh : ∀ q ∈ fm,
      (emptyPacket now).any (fun r => decide (r.1 = q.1)) = false := by
    intro q hq
    obtain ⟨h1, h2⟩ := hres q hq
    simp [emptyPacket, Ne.symm h1, Ne.symm h2]
  have hok := convertFields_ok j fm (emptyPacket now) hnt hfresh hnodup
  rw [okFields_all_ok j fm hall] at hok
  unfold parse_data
  dsimp only
  rw [parse_reach_insert mappings now j st ts m τ fm sid smt hts hτ hm hm0 hfm
    hsid hsmt hdup, hok]
  rfl

/-- Witness for the amended C5 at spec scenario A (wall clock 8). -/
theorem C5_roundtrip_witness :
    parse_data cexCfg 8 (.object cexFields) ⟨[], []⟩
      = (⟨pruneSeen [] [] 7 (8 - 10) ++ [cexPkt], dictSet [] cexPkt 7⟩,
         some (emptyPacket 8
           ++ [("temp", "temperature_F")].map
                (fun q => (q.1, .vFloat (convOk cexFields q.2))))) :=
  C5_roundtrip cexCfg 8 cexFields ⟨[], []⟩ "0001-01-01 00:00:07" "X" 7
    [("temp", "temperature_F")] (.sstr "1") (.sstr "a")
    rfl (by decide) rfl (by decide) (by decide) rfl rfl (by decide)
    (by
      intro q hq
      rw [List.mem_singleton] at hq
      subst hq
      exact ⟨"72.5", .fin ⟨725, 10⟩, rfl, by decide⟩)
    (by decide) (by decide)

/-- C4 (counterexample): a mapped source field holding JSON `null`
raises `TypeError` in `float(...)`, which `except ValueError` does not
catch — the whole message is rejected (no record at all) instead of just
that field being omitted. -/
theorem C4_counterexample :
    (parse_data cexCfg2 8 (.object cexFieldsNull) ⟨[], []⟩).2 = none
      ∧ (parseBody cexCfg2 8 (.object cexFieldsNull) ⟨[], []⟩).2
          = .exn .floatTypeErr := by
  refine ⟨by decide, by decide⟩

/-- C4 (amended): per-field omission applies exactly to source values
whose conversion raises `ValueError` (non-numeric strings): provided no
mapped source value is `null`, a list, or an object (those abort the
whole message via the generic handler), the message is accepted, each
non-numeric-string field is absent from the record, and each convertible
field is present with its float (with output fields distinct and away
from the reserved keys). -/
theorem C4_nonnumeric_strings_skipped (mappings : Mappings) (now : Int)
    (j : List (String × JValue)) (st : DriverState)
    (ts m : String) (τ : Int) (fm : List (String × String)) (sid smt : Scalar)
    (hts : jget j "time" = .jstr ts)
    (hτ : strptimeTs ts = some τ)
    (hm : jget j "model" = .jstr m)
    (hm0 : m ≠ "")
    (hfm : alookup mappings m = some fm)
    (hsid : hashScalar (jget j "id") = some sid)
    (hsmt : hashScalar (jget j "message_type") = some smt)
    (hdup : (ts, m, sid, smt)
      ∉ pruneSeen st.last_seen_packets st.packet_timestamps τ (now - 10))
    (hnt : ∀ q ∈ fm, ∀ v, alookup j q.2 = some v → pyFloatOfJ v ≠ .typeErr)
    (hres : ∀ q ∈ fm, q.1 ≠ "dateTime" ∧ q.1 ≠ "usUnits")
    (hnodup : (fm.map Prod.fst).Nodup) :
    ∃ p, parse_data mappings now (.object j) st
        = (⟨pruneSeen st.last_seen_packets st.packet_timestamps τ (now - 10)
              ++ [(ts, m, sid, smt)],
            dictSet st.packet_timestamps (ts, m, sid, smt) τ⟩, some p)
      ∧ (∀ q ∈ fm, ∀ v, alookup j q.2 = some v → pyFloatOfJ v = .valErr →
          alookup p q.1 = none)
      ∧ (∀ q ∈ fm, ∀ v f, alookup j q.2 = some v → pyFloatOfJ v = .ok f →
          alookup p q.1 = some (.vFloat f)) := by
  have hfresh : ∀ q ∈ fm,
      (emptyPacket now).any (fun r => decide (r.1 = q.1)) = false := by
    intro q hq
    obtain ⟨h1, h2⟩ := hres q hq
    simp [emptyPacket, Ne.symm h1, Ne.symm h2]
  have hok := convertFields_ok j fm (emptyPacket now) hnt hfresh hnodup
  refine ⟨emptyPacket now ++ okFields j fm, ?_, ?_, ?_⟩
  · unfold parse_data
    dsimp only
    rw [parse_reach_insert mappings now j st ts m τ fm sid smt hts hτ hm hm0 hfm
      hsid hsmt hdup, hok]
    rfl
  · intro q hq v hv hval
    obtain ⟨h1, h2⟩ := hres q hq
    rw [alookup_append_left_none (emptyPacket now) (okFields j fm) q.1
      (emptyPacket_alookup_ne now q.1 h1 h2)]
    exact okFields_lookup_valErr j fm hnodup q hq v hv hval
  · intro q hq v f hv hokf
    obtain ⟨h1, h2⟩ := hres q hq
    rw [alookup_append_left_none (emptyPacket now) (okFields j fm) q.1
      (emptyPacket_alookup_ne now q.1 h1 h2)]
    exact okFields_lookup_ok j fm hnodup q hq v f hv hokf

/-- Witness for the amended C4 at spec scenario D: `temperature_F` holds
a non-numeric string (omitted), `humidity` holds a numeric string
(present), the message is accepted. -/
theorem C4_nonnumeric_strings_skipped_witness :
    ∃ p, parse_data cexCfg2 8 (.object cexFieldsBad) ⟨[], []⟩
        = (⟨pruneSeen [] [] 7 (8 - 10) ++ [cexPkt], dictSet [] cexPkt 7⟩, some p)
      ∧ (∀ q ∈ [("temp", "temperature_F"), ("hum", "humidity")], ∀ v,
          alookup cexFieldsBad q.2 = some v → pyFloatOfJ v = .valErr →
          alookup p q.1 = none)
      ∧ (∀ q ∈ [("temp", "temperature_F"), ("hum", "humidity")], ∀ v f,
          alookup cexFieldsBad q.2 = some v → pyFloatOfJ v = .ok f →
          alookup p q.1 = some (.vFloat f)) :=
  C4_nonnumeric_strings_skipped cexCfg2 8 cexFieldsBad ⟨[], []⟩
    "0001-01-01 00:00:07" "X" 7 [("temp", "temperature_F"), ("hum", "humidity")]
    (.sstr "1") (.sstr "a")
    rfl (by decide) rfl (by decide) (by decide) rfl rfl (by decide)
    (by
      intro q hq v hv
      rcases List.mem_cons.mp hq with hq1 | hq2
      · subst hq1
        injection hv with h
        subst h
        decide
      · rw [List.mem_singleton] at hq2
        subst hq2
        injection hv with h
        subst h
        decide)
    (by decide) (by decide)

/-- Witness for C7 at a configuration missing `host` and a malformed
message. -/
theorem C7_errors_contained_witness :
    (∃ msg, loader ⟨[("topic", "t")], []⟩ = ([], Except.error msg))
      ∧ (∀ e, (parseBody [] 0 RawData.malformed ⟨[], []⟩).2 = .exn e →
          parse_data [] 0 RawData.malformed ⟨[], []⟩
            = ((parseBody [] 0 RawData.malformed ⟨[], []⟩).1, none)) :=
  C7_errors_contained ⟨[("topic", "t")], []⟩ [] 0 RawData.malformed ⟨[], []⟩
    (Or.inl rfl)
